import Mathlib

/-!
Verification development for the ata-protocol repository.

The definitions below are a shallow embedding of the server routes and of the
client reclaim logic of the repository:

* `chunkArray` embeds `chunkArray` from `src/app/page.tsx` (lines 148-157).
* the scan definitions embed the happy path of the ATA-balance route
  (`src/app/api/ata-balance/route.ts`), with the associated-token-address
  derivation (`getAssociatedTokenAddress`, which can throw) abstracted as an
  oracle `deriveAta : String → String → Option String`.
* the mint definitions embed the reward-mint route (`ensureNoDuplicateMint`,
  `updateSupabaseStatus` and the `POST` handler of the
  `mint-onboarding-nft` route), with the chain query `fetchTransactionOwner`
  (which returns the fee payer or null) abstracted as an oracle
  `chainFeePayer : String → Option String`, the Metaplex `nfts().create`
  call as `mintOutcome : Except String (String × String)`, and the Supabase
  table as an explicit list of rows threaded through the handler.  Requests
  are modelled as atomic: each handler runs to completion on the store
  before the next starts.
* the voice definitions embed the room-access route (`walletOwnsNft` and its
  `POST` handler), with ed25519 verification (`nacl.sign.detached.verify`),
  the Supabase success-row lookup, the on-chain collection scan and the
  LiveKit `toJwt` encoder abstracted as oracles.  `PublicKey` parsing is
  abstracted as a validity oracle `isValidKey`; for a valid canonical base58
  input, `new PublicKey(w).toBase58()` is `w` itself, so the grant identity
  is modelled as the trimmed wallet string.
* the reclaim definitions embed the chunk-submission loop of `handleReclaim`
  in `src/app/page.tsx` (lines 385-491): `sendTransaction` /
  `confirmTransaction` outcomes are an oracle `Nat → ChunkOutcome` indexed
  by chunk position, and the resulting React state (`reclaimError`,
  `reclaimSuccess`, `reclaimSignatures`) is returned explicitly together
  with a trace of how many chunks were submitted and confirmed on chain.
-/

namespace Ata

/-! ## Definitions -/

/-! ### Reclaim Executor: `chunkArray` (src/app/page.tsx) -/

/-- Body of the chunking loop of `chunkArray`: for a positive size `s` the
JS loop pushes `array.slice(index, index + size)` for `index = 0, s, 2s, …`.
For a cons cell, the slice of the first `s` elements is the head followed by
`take (s-1)` of the tail, and the loop continues on `drop (s-1)` of the
tail. -/
def chunkGo (s : Nat) : List α → List (List α)
  | [] => []
  | x :: xs => (x :: xs.take (s - 1)) :: chunkGo s (xs.drop (s - 1))
termination_by xs => xs.length
decreasing_by simp [List.length_drop]; omega

/-- Embedding of `chunkArray` from `src/app/page.tsx`: a non-positive size
returns the single chunk `[array]`; otherwise the loop slices the array into
consecutive chunks of `size` elements. -/
def chunkArray (array : List α) (size : Int) : List (List α) :=
  if size ≤ 0 then [array] else chunkGo size.toNat array

/-- The constant `RECLAIM_CHUNK_SIZE = 6` of `src/app/page.tsx`. -/
def RECLAIM_CHUNK_SIZE : Int := 6

/-! ### Account Scanner: the ATA-balance route -/

/-- The parsed token-account payload the route reads from
`getParsedTokenAccountsByOwner` (the `info` object: mint, raw amount as a
decimal string, decimals, state). -/
structure ParsedInfo where
  mint : String
  amount : String
  decimals : Nat
  state : String
deriving DecidableEq

/-- One entry of the chain query result: the account address (`pubkey`) and
the optional parsed data (`parsed?.info` may be absent). -/
structure ChainEntry where
  pubkey : String
  info : Option ParsedInfo
deriving DecidableEq

/-- One record of the route's result lists (the object built for each kept
entry). -/
structure AtaRecord where
  ataAddress : String
  mint : String
  amount : String
  decimals : Nat
  state : String
  isFrozen : Bool
deriving DecidableEq

/-- Embedding of the per-entry body of the `ataEntries` mapper in the
ATA-balance route: entries without parsed info are dropped, the associated
token address is re-derived from `(mint, owner)` via the oracle `deriveAta`
(`none` models `getAssociatedTokenAddress` throwing), entries whose derived
address disagrees with the chain-reported `pubkey` are dropped, and the kept
entries are turned into an `AtaRecord`. -/
def ataEntry (deriveAta : String → String → Option String) (owner : String)
    (entry : ChainEntry) : Option AtaRecord :=
  match entry.info with
  | none => none
  | some info =>
    match deriveAta info.mint owner with
    | none => none
    | some derived =>
      if derived == entry.pubkey then
        some { ataAddress := entry.pubkey, mint := info.mint,
               amount := info.amount, decimals := info.decimals,
               state := info.state, isFrozen := info.state == "frozen" }
      else none

/-- The `associatedAccounts` list of the route: the entries kept by
`ataEntry` (the `filter` over the mapped `ataEntries` in the source). -/
def scanAccounts (deriveAta : String → String → Option String) (owner : String)
    (entries : List ChainEntry) : List AtaRecord :=
  entries.filterMap (ataEntry deriveAta owner)

/-- The `emptyATAs` list of the route: canonical accounts with raw amount
`"0"` and not frozen. -/
def emptyAtaAccounts (accounts : List AtaRecord) : List AtaRecord :=
  accounts.filter (fun a => a.amount == "0" && !a.isFrozen)

/-- The success response of the ATA-balance route (the JSON fields relevant
to account filtering and counting; `reclaimableSOL` is computed in JS
double-precision arithmetic and is not embedded). -/
structure ScanSuccess where
  walletAddress : String
  totalAtas : Nat
  emptyAtas : Nat
  accounts : List AtaRecord
  allAccounts : List AtaRecord
deriving DecidableEq

/-- Embedding of the success path of the ATA-balance route `POST` handler:
`totalATAs` counts the canonical accounts, `emptyATAs` counts the empty
unfrozen ones, `accounts` is the empty list and `allAccounts` the full
canonical list. -/
def scanResponse (deriveAta : String → String → Option String) (owner : String)
    (entries : List ChainEntry) : ScanSuccess :=
  let allAccounts := scanAccounts deriveAta owner entries
  let empties := emptyAtaAccounts allAccounts
  { walletAddress := owner, totalAtas := allAccounts.length,
    emptyAtas := empties.length, accounts := empties,
    allAccounts := allAccounts }

/-! ### Duplicate-Mint Guard and Reward Minter: the mint route -/

/-- Embedding of `String.prototype.trim` as used on request fields: strip
leading and trailing whitespace from the character list of the string. -/
def jsTrim (s : String) : String :=
  String.mk
    (((s.data.dropWhile Char.isWhitespace).reverse.dropWhile
        Char.isWhitespace).reverse)

/-- One row of the `nft_mints` Supabase table (`SupabaseMintRow` in the mint
route).  `created_at` ordering is modelled by list order: the store list is
in insertion order, so the most recent row for a wallet is the last matching
row. -/
structure MintRow where
  id : Nat
  user_wallet : String
  nft_mint_address : Option String
  transaction_signature : Option String
  reclaim_signature : Option String
  status : String
  error_message : Option String
deriving DecidableEq

/-- The route's duplicate lookup: select rows of the wallet ordered by
`created_at` descending, limit 1 — i.e. the last inserted row for that
wallet. -/
def lookupLatest (store : List MintRow) (wallet : String) : Option MintRow :=
  (store.filter (fun r => r.user_wallet == wallet)).getLast?

/-- The pending row inserted by `ensureNoDuplicateMint` (`status: "pending"`,
optionally carrying the reclaim signature).  Row ids are generated as the
current store length, so ids equal list positions. -/
def pendingRow (id : Nat) (wallet : String) (reclaimSig : Option String) :
    MintRow :=
  { id := id, user_wallet := wallet, nft_mint_address := none,
    transaction_signature := none, reclaim_signature := reclaimSig,
    status := "pending", error_message := none }

/-- Result of `ensureNoDuplicateMint` (`DuplicateCheckResult` in the
source). -/
inductive DupResult where
  | already (latest : MintRow)
  | fresh (recordId : Nat)
deriving DecidableEq

/-- Embedding of `ensureNoDuplicateMint`: look up the most recent row for
the wallet; if it exists with `status = "success"` report `alreadyMinted`
with it, otherwise insert a new pending row and return its id. -/
def ensureNoDuplicateMint (store : List MintRow) (wallet : String)
    (reclaimSig : Option String) : DupResult × List MintRow :=
  match lookupLatest store wallet with
  | some row =>
    if row.status == "success" then (.already row, store)
    else (.fresh store.length, store ++ [pendingRow store.length wallet reclaimSig])
  | none => (.fresh store.length, store ++ [pendingRow store.length wallet reclaimSig])

/-- Embedding of `updateSupabaseStatus`: update the row with the given id in
place (no-op without a record id). -/
def updateSupabaseStatus (store : List MintRow) (recordId : Option Nat)
    (updates : MintRow → MintRow) : List MintRow :=
  match recordId with
  | none => store
  | some id => store.map (fun r => if r.id == id then updates r else r)

/-- The responses of the mint route `POST` handler that the embedding
distinguishes (each corresponds to one `NextResponse.json` call of the
source; env-configuration failures and JSON parse failures are outside the
model). -/
inductive MintResp where
  | missingWallet
  | missingSignature
  | invalidWallet
  | invalidReclaimSignature
  | alreadyMinted (mintAddress : Option String)
  | minted (mintAddress : String) (txSignature : String)
  | mintFailed (message : String)
deriving DecidableEq

/-- The request payload of the mint route (`MintRequestPayload`): both
fields optional. -/
structure MintReq where
  walletAddress : Option String
  reclaimSignature : Option String
deriving DecidableEq

/-- The guarded mint section of the mint route `POST` handler (the body of
its `try` block after reclaim verification): run the duplicate check,
short-circuit on `already_minted`, otherwise mint (oracle `mintOutcome`) and
update the pending row to success or failed. -/
def mintCore (mintOutcome : Except String (String × String))
    (wallet : String) (reclaimSignature : String) (store : List MintRow) :
    MintResp × List MintRow :=
  match ensureNoDuplicateMint store wallet (some reclaimSignature) with
  | (.already latest, store1) => (.alreadyMinted latest.nft_mint_address, store1)
  | (.fresh recordId, store1) =>
    match mintOutcome with
    | .ok (mintAddress, txSig) =>
      (.minted mintAddress txSig,
       updateSupabaseStatus store1 (some recordId) (fun r =>
         { r with status := "success", nft_mint_address := some mintAddress,
                  transaction_signature := some txSig, error_message := none }))
    | .error msg =>
      (.mintFailed msg,
       updateSupabaseStatus store1 (some recordId) (fun r =>
         { r with status := "failed", error_message := some msg }))

/-- Embedding of the mint route `POST` handler: trim and require the wallet
and reclaim-signature fields, require the wallet to parse as a public key
(oracle `isValidKey`), require the reclaim transaction's fee payer (oracle
`chainFeePayer`, `none` for an absent/unconfirmed transaction) to equal the
wallet address, then run the guarded mint section. -/
def mintPOST (isValidKey : String → Bool)
    (chainFeePayer : String → Option String)
    (mintOutcome : Except String (String × String))
    (req : MintReq) (store : List MintRow) : MintResp × List MintRow :=
  match req.walletAddress.map jsTrim with
  | none => (.missingWallet, store)
  | some walletAddress =>
    if walletAddress == "" then (.missingWallet, store)
    else
      match req.reclaimSignature.map jsTrim with
      | none => (.missingSignature, store)
      | some reclaimSignature =>
        if reclaimSignature == "" then (.missingSignature, store)
        else if !isValidKey walletAddress then (.invalidWallet, store)
        else if chainFeePayer reclaimSignature != some walletAddress then
          (.invalidReclaimSignature, store)
        else mintCore mintOutcome walletAddress reclaimSignature store

/-- The stores reachable from the empty table by a sequence of mint
requests, each handled atomically (per-request chain state, mint outcome and
key-validity behavior may differ between steps). -/
inductive ReachableStore : List MintRow → Prop
  | nil : ReachableStore []
  | step (isValidKey : String → Bool) (chainFeePayer : String → Option String)
      (mintOutcome : Except String (String × String)) (req : MintReq)
      (store : List MintRow) : ReachableStore store →
      ReachableStore (mintPOST isValidKey chainFeePayer mintOutcome req store).2

/-- The rows of a wallet that reached `status = "success"`. -/
def successRows (store : List MintRow) (wallet : String) : List MintRow :=
  store.filter (fun r => r.user_wallet == wallet && r.status == "success")

/-- The inductive invariant of the mint store: row ids equal list positions
(ids are generated as the store length at insertion time), and a wallet
either has no success row, or has exactly one, which is also its most
recent row. -/
def StoreInv (store : List MintRow) : Prop :=
  store.map (fun r => r.id) = List.range store.length ∧
  ∀ wallet, successRows store wallet = [] ∨
    ∃ row, successRows store wallet = [row] ∧
      lookupLatest store wallet = some row ∧ row.status = "success"

/-! ### Room Access Authorizer: the voice-token route -/

/-- The request payload of the voice-token route (`VoiceTokenPayload`): all
fields optional. -/
structure VoicePayload where
  walletAddress : Option String
  signature : Option String
  message : Option String
  room : Option String
deriving DecidableEq

/-- The LiveKit access grant built by the route: `AccessToken` identity and
ttl plus the `addGrant` fields. -/
structure VoiceGrant where
  room : String
  identity : String
  ttl : Nat
  roomJoin : Bool
  canPublish : Bool
  canSubscribe : Bool
  canPublishData : Bool
deriving DecidableEq

/-- The responses of the voice-token route `POST` handler (one per
`NextResponse.json` call; env-configuration and JSON parse failures are
outside the model). -/
inductive VoiceResp where
  | missingParameters
  | invalidWallet
  | invalidMessage
  | invalidSignature
  | missingNft
  | livekitError
  | tokenIssued (token : String) (room : String) (grant : VoiceGrant)
deriving DecidableEq

/-- Embedding of `String.prototype.startsWith` as used on the message
(`message.startsWith("ATA_VOICE_JOIN:")` in the route): the tag's character
list is a prefix of the string's character list. -/
def jsStartsWith (s tag : String) : Bool :=
  tag.data.isPrefixOf s.data

/-- Embedding of `walletOwnsNft`: without Supabase configuration the wallet
does not own; a store lookup error (`storeLookup = .error _`) yields false
immediately, before the fallback; a found success row yields true; otherwise
the on-chain fallback scan runs only when the collection mint is configured,
and its result (oracle `chainScanFindsCollection`) decides. -/
def walletOwnsNft (supabaseConfigured : Bool) (storeLookup : Except String Bool)
    (collectionConfigured : Bool) (chainScanFindsCollection : Bool) : Bool :=
  if !supabaseConfigured then false
  else
    match storeLookup with
    | .error _ => false
    | .ok true => true
    | .ok false =>
      if !collectionConfigured then false else chainScanFindsCollection

/-- Embedding of the voice-token route `POST` handler: trim and require the
wallet and signature, require a non-empty message (not trimmed in the
source), default the room to `"welcome-family"` when the room field is
absent or trims to the empty string, require the wallet to parse, require
the message to start with `"ATA_VOICE_JOIN:"`, verify the signature (oracle
`verifySig message signature wallet`), check reward ownership via
`walletOwnsNft`, and finally issue the 10-minute grant for the room with the
wallet as identity (`mkJwt` is the `toJwt` oracle; its error case is the
`livekit_error` response). -/
def voicePOST (isValidKey : String → Bool)
    (verifySig : String → String → String → Bool)
    (mkJwt : VoiceGrant → Except String String)
    (supabaseConfigured : Bool)
    (storeLookup : String → Except String Bool)
    (collectionConfigured : Bool)
    (chainScan : String → Bool)
    (payload : VoicePayload) : VoiceResp :=
  let message := payload.message.getD ""
  let room :=
    match payload.room.map jsTrim with
    | none => "welcome-family"
    | some r => if r == "" then "welcome-family" else r
  match payload.walletAddress.map jsTrim,
        payload.signature.map jsTrim with
  | some walletAddress, some sigField =>
    if walletAddress == "" || sigField == "" || message == "" then
      .missingParameters
    else if !isValidKey walletAddress then .invalidWallet
    else if !jsStartsWith message "ATA_VOICE_JOIN:" then .invalidMessage
    else if !verifySig message sigField walletAddress then .invalidSignature
    else if !walletOwnsNft supabaseConfigured (storeLookup walletAddress)
        collectionConfigured (chainScan walletAddress) then .missingNft
    else
      let grant : VoiceGrant :=
        { room := room, identity := walletAddress, ttl := 60 * 10,
          roomJoin := true, canPublish := true, canSubscribe := true,
          canPublishData := true }
      match mkJwt grant with
      | .ok token => .tokenIssued token room grant
      | .error _ => .livekitError
  | none, _ => .missingParameters
  | _, none => .missingParameters

/-- Modelled from the spec: the external-interface section requires the
authorize message to match `"ATA_VOICE_JOIN:" + room + ":" + nonce` for the
requested room; a message matches exactly when it extends the prefix
`"ATA_VOICE_JOIN:" ++ room ++ ":"` (the nonce being the rest).  The route
itself has no such room-bound check, so this definition follows the spec
text and is compared against the route's behavior. -/
def specVoiceMessagePattern (room message : String) : Bool :=
  jsStartsWith message ("ATA_VOICE_JOIN:" ++ room ++ ":")

/-! ### Reclaim Executor: the chunk-submission loop of `handleReclaim` -/

/-- One `createCloseAccountInstruction(account, destination, authority)`
call: the account to close, the rent destination and the owner authority
(both the connected wallet in the source). -/
structure CloseInstr where
  account : String
  destination : String
  authority : String
deriving DecidableEq

/-- The transaction built for one chunk: one close instruction per account
of the chunk, rent and authority going to the connected wallet. -/
def buildChunkTx (owner : String) (chunk : List AtaRecord) : List CloseInstr :=
  chunk.map (fun a =>
    { account := a.ataAddress, destination := owner, authority := owner })

/-- The transactions the reclaim flow builds: one per chunk of
`chunkArray(accounts, RECLAIM_CHUNK_SIZE)`. -/
def reclaimTransactions (owner : String) (accounts : List AtaRecord) :
    List (List CloseInstr) :=
  (chunkArray accounts RECLAIM_CHUNK_SIZE).map (buildChunkTx owner)

/-- Outcome of processing one chunk: `sendTransaction` throws, or it returns
a signature and `confirmTransaction` throws, or both succeed. -/
inductive ChunkOutcome where
  | sendFail
  | confirmFail (sig : String)
  | ok (sig : String)
deriving DecidableEq

/-- Trace of the sequential submission loop: the local
`collectedSignatures` value when the loop ends or throws, how many chunks
were confirmed on chain, how many were submitted, and whether the loop
threw. -/
structure ReclaimRun where
  collected : List String
  confirmed : Nat
  submitted : Nat
  failed : Bool
deriving DecidableEq

/-- Embedding of the `for (const chunk of chunks)` loop of `handleReclaim`:
chunk `i`'s outcome is `outcome i`; a send failure throws before the
signature is pushed, a confirm failure throws after it, and on success the
loop continues.  Confirmed closures are final: the `confirmed` count of the
returned trace is never decreased. -/
def runChunks (outcome : Nat → ChunkOutcome) :
    List (List CloseInstr) → Nat → List String → ReclaimRun
  | [], i, acc =>
    { collected := acc, confirmed := i, submitted := i, failed := false }
  | _ :: rest, i, acc =>
    match outcome i with
    | .sendFail =>
      { collected := acc, confirmed := i, submitted := i + 1, failed := true }
    | .confirmFail sig =>
      { collected := acc ++ [sig], confirmed := i, submitted := i + 1,
        failed := true }
    | .ok sig => runChunks outcome rest (i + 1) (acc ++ [sig])

/-- The React state set by `handleReclaim` that is visible to the caller
after the flow ends: `reclaimError`, `reclaimSuccess` and
`reclaimSignatures`. -/
structure ReclaimUi where
  reclaimError : String
  reclaimSuccess : Option String
  reclaimSignatures : List String
deriving DecidableEq

/-- The fixed message of the `catch` branch of `handleReclaim`. -/
def reclaimFailureMessage : String :=
  "Impossible de finaliser le reclaim. Réessayez dans quelques instants."

/-- Embedding of the reclaim section of `handleReclaim` (state resets, the
chunk loop, and the success / catch branches; the ownership and non-empty
guards and the follow-up mint call are outside this trace).  On a loop
failure the catch branch leaves the signature list at its reset value `[]`
and stores the fixed failure message; on success the collected signatures
and a count-bearing success message are stored. -/
def handleReclaim (outcome : Nat → ChunkOutcome) (owner : String)
    (accounts : List AtaRecord) : ReclaimUi × ReclaimRun :=
  let chunks := (chunkArray accounts RECLAIM_CHUNK_SIZE).map (buildChunkTx owner)
  let run := runChunks outcome chunks 0 []
  if run.failed then
    ({ reclaimError := reclaimFailureMessage, reclaimSuccess := none,
       reclaimSignatures := [] }, run)
  else
    ({ reclaimError := "",
       reclaimSuccess := some (if run.collected.length > 1 then
           toString run.collected.length ++ " transactions envoyées."
         else "Transaction envoyée."),
       reclaimSignatures := run.collected }, run)

/-! ### Concrete fixtures used by witnesses and counterexamples -/

/-- A concrete token-account record for fixture lists. -/
def sampleAta (name : String) : AtaRecord :=
  { ataAddress := name, mint := name, amount := "0", decimals := 6,
    state := "initialized", isFrozen := false }

/-- Seven empty accounts: two chunks of sizes 6 and 1. -/
def sevenAccounts : List AtaRecord :=
  [sampleAta "a0", sampleAta "a1", sampleAta "a2", sampleAta "a3",
   sampleAta "a4", sampleAta "a5", sampleAta "a6"]

/-- Thirteen empty accounts: chunks of sizes 6, 6 and 1. -/
def thirteenAccounts : List AtaRecord :=
  [sampleAta "a0", sampleAta "a1", sampleAta "a2", sampleAta "a3",
   sampleAta "a4", sampleAta "a5", sampleAta "a6", sampleAta "a7",
   sampleAta "a8", sampleAta "a9", sampleAta "a10", sampleAta "a11",
   sampleAta "a12"]

/-- Fixture outcome: the first chunk confirms with signature `"s1"`, every
later chunk fails at submission. -/
def failAfterFirst : Nat → ChunkOutcome :=
  fun i => if i == 0 then .ok "s1" else .sendFail

/-- Fixture derivation oracle: the canonical address of `(mint, owner)` is
`"ata-" ++ mint ++ "-" ++ owner`. -/
def canonicalDerive : String → String → Option String :=
  fun mint owner => some ("ata-" ++ mint ++ "-" ++ owner)

/-- Fixture chain entry whose address agrees with the canonical
derivation for wallet `"W"`. -/
def goodEntry : ChainEntry :=
  { pubkey := "ata-m1-W",
    info := some { mint := "m1", amount := "0", decimals := 6,
                   state := "initialized" } }

/-- Fixture chain entry holding the same mint at a non-canonical address. -/
def forgedEntry : ChainEntry :=
  { pubkey := "forged",
    info := some { mint := "m1", amount := "0", decimals := 6,
                   state := "initialized" } }

/-- Fixture key-validity oracle accepting every wallet string. -/
def alwaysValidKey : String → Bool := fun _ => true

/-- Fixture mint request for wallet `"W"` with reclaim signature `"SIG"`. -/
def mintReqW : MintReq :=
  { walletAddress := some "W", reclaimSignature := some "SIG" }

/-- Fixture chain oracle: every transaction's fee payer is `"W"`. -/
def chainW : String → Option String := fun _ => some "W"

/-- Fixture chain oracle: no transaction resolves. -/
def chainNone : String → Option String := fun _ => none

/-- Fixture mint outcome: minting yields mint address `"MINT"` and
transaction signature `"TX"`. -/
def okOutcome : Except String (String × String) := .ok ("MINT", "TX")

/-- Fixture signature-verification oracle accepting everything. -/
def alwaysVerify : String → String → String → Bool := fun _ _ _ => true

/-- Fixture JWT oracle returning the token `"tok"`. -/
def jwtOk : VoiceGrant → Except String String := fun _ => .ok "tok"

/-- Fixture store lookup: every wallet has a success row. -/
def storeYes : String → Except String Bool := fun _ => .ok true

/-- Fixture store lookup: the lookup fails with a database error. -/
def storeErr : String → Except String Bool := fun _ => .error "db down"

/-- Fixture voice payload: requested room `"welcome-family"` but a message
built for a different room, with the fixed tag present. -/
def evilRoomPayload : VoicePayload :=
  { walletAddress := some "W", signature := some "SIG",
    message := some "ATA_VOICE_JOIN:evil:1", room := some "welcome-family" }

/-- Fixture voice payload: no room field, well-formed message for the
default room. -/
def noRoomPayload : VoicePayload :=
  { walletAddress := some "W", signature := some "SIG",
    message := some "ATA_VOICE_JOIN:welcome-family:42", room := none }

/-! ## Helper lemmas about the chunking loop -/

theorem chunkGo_join (s : Nat) : ∀ xs : List α, (chunkGo s xs).flatten = xs
  | [] => by simp [chunkGo]
  | x :: xs => by
      rw [chunkGo]
      simp only [List.flatten_cons]
      rw [chunkGo_join s (xs.drop (s - 1))]
      simp [List.take_append_drop]
termination_by xs => xs.length
decreasing_by simp [List.length_drop]; omega

theorem chunkGo_eq_nil_iff (s : Nat) (xs : List α) :
    chunkGo s xs = [] ↔ xs = [] := by
  cases xs with
  | nil => simp [chunkGo]
  | cons x xs => simp [chunkGo]

theorem chunkGo_mem_length (s : Nat) (hs : 1 ≤ s) :
    ∀ xs : List α, ∀ c ∈ chunkGo s xs, c ≠ [] ∧ c.length ≤ s
  | [] => by simp [chunkGo]
  | x :: xs => by
      intro c hc
      rw [chunkGo] at hc
      rcases List.mem_cons.mp hc with h | h
      · subst h
        refine ⟨by simp, ?_⟩
        have : (xs.take (s - 1)).length ≤ s - 1 :=
          List.length_take_le (s - 1) xs
        simp only [List.length_cons]
        omega
      · exact chunkGo_mem_length s hs (xs.drop (s - 1)) c h
termination_by xs => xs.length
decreasing_by simp [List.length_drop]; omega

theorem chunkGo_dropLast_length (s : Nat) (hs : 1 ≤ s) :
    ∀ xs : List α, ∀ c ∈ (chunkGo s xs).dropLast, c.length = s
  | [] => by simp [chunkGo]
  | x :: xs => by
      intro c hc
      rw [chunkGo] at hc
      rcases hrest : chunkGo s (xs.drop (s - 1)) with _ | ⟨r, rs⟩
      · rw [hrest] at hc
        simp at hc
      · rw [hrest] at hc
        rw [List.dropLast_cons_of_ne_nil (by simp)] at hc
        rcases List.mem_cons.mp hc with h | h
        · subst h
          have hdrop : xs.drop (s - 1) ≠ [] := by
            intro hnil
            rw [hnil] at hrest
            simp [chunkGo] at hrest
          have hlen : s - 1 ≤ xs.length := by
            by_contra hlt
            push_neg at hlt
            exact hdrop (List.drop_eq_nil_of_le (Nat.le_of_lt hlt))
          simp only [List.length_cons, List.length_take]
          omega
        · have := chunkGo_dropLast_length s hs (xs.drop (s - 1))
          rw [hrest] at this
          exact this c h
termination_by xs => xs.length
decreasing_by simp [List.length_drop]; omega

theorem lens_of_sum_13 (L : List Nat) (hdrop : ∀ c ∈ L.dropLast, c = 6)
    (hmem : ∀ c ∈ L, 1 ≤ c ∧ c ≤ 6) (hsum : L.sum = 13) : L = [6, 6, 1] := by
  have hne : L ≠ [] := by rintro rfl; simp at hsum
  have hsplit := List.dropLast_append_getLast hne
  have hrep : L.dropLast = List.replicate L.dropLast.length 6 :=
    List.eq_replicate_of_mem hdrop
  have hlastb := hmem (L.getLast hne) (List.getLast_mem hne)
  have hsum2 : 6 * L.dropLast.length + L.getLast hne = 13 := by
    have h13 : (L.dropLast ++ [L.getLast hne]).sum = 13 := by rw [hsplit, hsum]
    rw [List.sum_append, hrep] at h13
    simp only [List.sum_replicate, smul_eq_mul, List.length_replicate,
      List.sum_cons, List.sum_nil, add_zero] at h13
    omega
  have hk : L.dropLast.length = 2 := by omega
  have hlast : L.getLast hne = 1 := by omega
  rw [← hsplit, hrep, hk, hlast]
  rfl

/-! ## Claim theorems -/

/-- C9: for every list `xs` and every chunk size `s > 0`, concatenating the
chunks of `chunkArray xs s` in order yields exactly `xs` (no element
dropped, duplicated or reordered) and every chunk except possibly the last
has length exactly `s`; for every `s ≤ 0`, `chunkArray xs s` returns the
single chunk `[xs]`. -/
theorem chunkArray_flatten_and_sizes {α : Type} (xs : List α) (s : Int) :
    (0 < s → (chunkArray xs s).flatten = xs ∧
      ∀ c ∈ (chunkArray xs s).dropLast, (c.length : Int) = s) ∧
    (s ≤ 0 → chunkArray xs s = [xs]) := by
  constructor
  · intro hs
    rw [chunkArray, if_neg (not_le.mpr hs)]
    refine ⟨chunkGo_join _ xs, ?_⟩
    intro c hc
    have h1 : 1 ≤ s.toNat := by omega
    have := chunkGo_dropLast_length s.toNat h1 xs c hc
    omega
  · intro hs
    rw [chunkArray, if_pos hs]

/-- Witness for C9: the theorem applied at a concrete 7-element list with
`s = 6` and with `s = -1`. -/
theorem chunkArray_flatten_and_sizes_witness :
    (chunkArray [10, 20, 30, 40, 50, 60, 70] (6 : Int)).flatten =
        [10, 20, 30, 40, 50, 60, 70] ∧
      chunkArray [10, 20, 30, 40, 50, 60, 70] (-1 : Int) =
        [[10, 20, 30, 40, 50, 60, 70]] :=
  ⟨((chunkArray_flatten_and_sizes [10, 20, 30, 40, 50, 60, 70] 6).1
      (by decide)).1,
   (chunkArray_flatten_and_sizes [10, 20, 30, 40, 50, 60, 70] (-1)).2
      (by decide)⟩

/-- C7: for every non-empty account list, the Reclaim Executor splits it
into consecutive chunks of size 6 preserving input order, with only the
last chunk possibly smaller (13 accounts yield chunk sizes [6, 6, 1]), and
builds exactly one transaction per chunk containing one close instruction
per account of that chunk. -/
theorem reclaim_chunking_shape (owner : String) (accounts : List AtaRecord)
    (_hne : accounts ≠ []) :
    (chunkArray accounts RECLAIM_CHUNK_SIZE).flatten = accounts ∧
    (∀ c ∈ (chunkArray accounts RECLAIM_CHUNK_SIZE).dropLast, c.length = 6) ∧
    (∀ c ∈ chunkArray accounts RECLAIM_CHUNK_SIZE, c ≠ [] ∧ c.length ≤ 6) ∧
    reclaimTransactions owner accounts =
      (chunkArray accounts RECLAIM_CHUNK_SIZE).map (fun c => c.map (fun a =>
        { account := a.ataAddress, destination := owner,
          authority := owner })) ∧
    (∀ c ∈ chunkArray accounts RECLAIM_CHUNK_SIZE,
        (buildChunkTx owner c).length = c.length) ∧
    (accounts.length = 13 →
      (chunkArray accounts RECLAIM_CHUNK_SIZE).map List.length = [6, 6, 1]) := by
  have hchunk : chunkArray accounts RECLAIM_CHUNK_SIZE = chunkGo 6 accounts := by
    simp [chunkArray, RECLAIM_CHUNK_SIZE]
  refine ⟨?_, ?_, ?_, ?_, ?_, ?_⟩
  · rw [hchunk]; exact chunkGo_join 6 accounts
  · rw [hchunk]; exact chunkGo_dropLast_length 6 (by norm_num) accounts
  · rw [hchunk]; exact chunkGo_mem_length 6 (by norm_num) accounts
  · rfl
  · intro c _; simp [buildChunkTx]
  · intro h13
    rw [hchunk]
    apply lens_of_sum_13
    · intro c hc
      rw [← List.map_dropLast] at hc
      obtain ⟨c', hc', rfl⟩ := List.mem_map.mp hc
      exact chunkGo_dropLast_length 6 (by norm_num) accounts c' hc'
    · intro c hc
      obtain ⟨c', hc', rfl⟩ := List.mem_map.mp hc
      have h := chunkGo_mem_length 6 (by norm_num) accounts c' hc'
      exact ⟨List.length_pos.mpr h.1, h.2⟩
    · rw [← List.length_flatten, chunkGo_join, h13]

/-- Witness for C7: the theorem applied at the concrete 13-account fixture
yields the chunk sizes [6, 6, 1]. -/
theorem reclaim_chunking_shape_witness :
    (chunkArray thirteenAccounts RECLAIM_CHUNK_SIZE).map List.length =
      [6, 6, 1] :=
  (reclaim_chunking_shape "W" thirteenAccounts (by decide)).2.2.2.2.2
    (by decide)

/-- C4: every account in the Account Scanner's result lists has an address
equal to the canonical associated-token derivation from (its mint, the
queried wallet); entries whose re-derivation disagrees with the
chain-reported address, or for which derivation fails, are excluded from
totals and from the returned lists. -/
theorem scanner_only_canonical (deriveAta : String → String → Option String)
    (owner : String) (entries : List ChainEntry) :
    (∀ rec ∈ (scanResponse deriveAta owner entries).allAccounts,
        deriveAta rec.mint owner = some rec.ataAddress) ∧
    (∀ rec ∈ (scanResponse deriveAta owner entries).accounts,
        deriveAta rec.mint owner = some rec.ataAddress) ∧
    (∀ entry ∈ entries, ∀ info, entry.info = some info →
        deriveAta info.mint owner ≠ some entry.pubkey →
        ataEntry deriveAta owner entry = none) ∧
    (scanResponse deriveAta owner entries).totalAtas =
      (scanAccounts deriveAta owner entries).length ∧
    (scanResponse deriveAta owner entries).emptyAtas =
      (emptyAtaAccounts (scanAccounts deriveAta owner entries)).length ∧
    (scanResponse deriveAta owner entries).accounts =
      emptyAtaAccounts (scanAccounts deriveAta owner entries) := by
  have hall : ∀ rec ∈ scanAccounts deriveAta owner entries,
      deriveAta rec.mint owner = some rec.ataAddress := by
    intro rec hrec
    obtain ⟨entry, _, hsome⟩ := List.mem_filterMap.mp hrec
    cases hinfo : entry.info with
    | none => simp [ataEntry, hinfo] at hsome
    | some info =>
      cases hd : deriveAta info.mint owner with
      | none => simp [ataEntry, hinfo, hd] at hsome
      | some derived =>
        cases hbe : derived == entry.pubkey with
        | false => simp [ataEntry, hinfo, hd, hbe] at hsome
        | true =>
          simp only [ataEntry, hinfo, hd, hbe, if_true] at hsome
          obtain rfl := eq_of_beq hbe
          rw [Option.some.injEq] at hsome
          subst hsome
          exact hd
  refine ⟨hall, ?_, ?_, rfl, rfl, rfl⟩
  · intro rec hrec
    exact hall rec (List.mem_of_mem_filter hrec)
  · intro entry _ info hinfo hne
    cases hd : deriveAta info.mint owner with
    | none => simp [ataEntry, hinfo, hd]
    | some derived =>
      have hbe : (derived == entry.pubkey) = false := by
        apply beq_eq_false_iff_ne.mpr
        intro h
        exact hne (hd ▸ congrArg some h)
      simp [ataEntry, hinfo, hd, hbe]

/-- Witness for C4: with the fixture derivation, the forged entry is
mapped to `none` and the canonical entry's record re-derives to its own
address. -/
theorem scanner_only_canonical_witness :
    ataEntry canonicalDerive "W" forgedEntry = none :=
  (scanner_only_canonical canonicalDerive "W" [goodEntry, forgedEntry]).2.2.1
    forgedEntry (by decide)
    { mint := "m1", amount := "0", decimals := 6, state := "initialized" }
    (by decide) (by decide)

/-! ## Helper lemma for the reclaim submission loop -/

theorem runChunks_failed_spec (outcome : Nat → ChunkOutcome) :
    ∀ (chunks : List (List CloseInstr)) (i : Nat) (acc : List String),
      (runChunks outcome chunks i acc).failed = true →
      (runChunks outcome chunks i acc).submitted =
          (runChunks outcome chunks i acc).confirmed + 1 ∧
        i ≤ (runChunks outcome chunks i acc).confirmed ∧
        (runChunks outcome chunks i acc).confirmed < i + chunks.length ∧
        (∀ j, i ≤ j → j < (runChunks outcome chunks i acc).confirmed →
          ∃ sg, outcome j = ChunkOutcome.ok sg) ∧
        ∀ sg, outcome (runChunks outcome chunks i acc).confirmed ≠
          ChunkOutcome.ok sg
  | [], i, acc => by intro h; simp [runChunks] at h
  | c :: rest, i, acc => by
    intro hfail
    rcases ho : outcome i with _ | sg | sg
    · have hr : runChunks outcome (c :: rest) i acc =
          { collected := acc, confirmed := i, submitted := i + 1,
            failed := true } := by
        simp [runChunks, ho]
      rw [hr]
      refine ⟨rfl, le_refl i, by simp, ?_, ?_⟩
      · intro j hij hji
        have hji2 : j < i := hji
        omega
      · intro sg2 hok
        have hok2 : outcome i = ChunkOutcome.ok sg2 := hok
        rw [ho] at hok2
        exact ChunkOutcome.noConfusion hok2
    · have hr : runChunks outcome (c :: rest) i acc =
          { collected := acc ++ [sg], confirmed := i, submitted := i + 1,
            failed := true } := by
        simp [runChunks, ho]
      rw [hr]
      refine ⟨rfl, le_refl i, by simp, ?_, ?_⟩
      · intro j hij hji
        have hji2 : j < i := hji
        omega
      · intro sg2 hok
        have hok2 : outcome i = ChunkOutcome.ok sg2 := hok
        rw [ho] at hok2
        exact ChunkOutcome.noConfusion hok2
    · have hr : runChunks outcome (c :: rest) i acc =
          runChunks outcome rest (i + 1) (acc ++ [sg]) := by
        simp [runChunks, ho]
      rw [hr] at hfail ⊢
      obtain ⟨h1, h2, h3, h4, h5⟩ :=
        runChunks_failed_spec outcome rest (i + 1) (acc ++ [sg]) hfail
      refine ⟨h1, by omega, by simp only [List.length_cons]; omega, ?_, h5⟩
      intro j hij hji
      rcases Nat.eq_or_lt_of_le hij with h | h
      · exact ⟨sg, h ▸ ho⟩
      · exact h4 j h hji

/-- C5 (amended): if any chunk's submission or confirmation fails during
reclaim, the remaining chunks are not submitted (exactly the chunks up to
and including the failing one were submitted, and only the chunks before it
were confirmed — those confirmations are kept, never rolled back), but the
caller is NOT returned the signatures collected so far: the visible
signature list is left at its reset value `[]`, the success message is
cleared, and the failure indicator is the fixed generic message, which does
not report how many chunks succeeded. -/
theorem reclaim_failure_aborts (outcome : Nat → ChunkOutcome) (owner : String)
    (accounts : List AtaRecord)
    (hfail : (handleReclaim outcome owner accounts).2.failed = true) :
    (handleReclaim outcome owner accounts).1 =
      { reclaimError := reclaimFailureMessage, reclaimSuccess := none,
        reclaimSignatures := [] } ∧
    (handleReclaim outcome owner accounts).2.submitted =
      (handleReclaim outcome owner accounts).2.confirmed + 1 ∧
    (handleReclaim outcome owner accounts).2.confirmed <
      (chunkArray accounts RECLAIM_CHUNK_SIZE).length ∧
    (∀ j, j < (handleReclaim outcome owner accounts).2.confirmed →
      ∃ sg, outcome j = ChunkOutcome.ok sg) ∧
    ∀ sg,
      outcome (handleReclaim outcome owner accounts).2.confirmed ≠
        ChunkOutcome.ok sg := by
  have hsnd : (handleReclaim outcome owner accounts).2 =
      runChunks outcome
        ((chunkArray accounts RECLAIM_CHUNK_SIZE).map (buildChunkTx owner))
        0 [] := by
    unfold handleReclaim
    by_cases hf :
        (runChunks outcome
          ((chunkArray accounts RECLAIM_CHUNK_SIZE).map (buildChunkTx owner))
          0 []).failed
    · simp [hf]
    · simp [hf]
  rw [hsnd] at hfail ⊢
  obtain ⟨h1, _, h3, h4, h5⟩ :=
    runChunks_failed_spec outcome
      ((chunkArray accounts RECLAIM_CHUNK_SIZE).map (buildChunkTx owner))
      0 [] hfail
  refine ⟨?_, h1, by simpa using h3, fun j hj => h4 j (Nat.zero_le j) hj, h5⟩
  unfold handleReclaim
  simp [hfail]

/-- Witness for C5's amended theorem: applied to the 7-account fixture
where the second chunk's submission fails. -/
theorem reclaim_failure_aborts_witness :
    (handleReclaim failAfterFirst "W" sevenAccounts).1 =
      { reclaimError := reclaimFailureMessage, reclaimSuccess := none,
        reclaimSignatures := [] } :=
  (reclaim_failure_aborts failAfterFirst "W" sevenAccounts
    (by simp [handleReclaim, sevenAccounts, sampleAta, chunkArray,
      RECLAIM_CHUNK_SIZE, chunkGo, buildChunkTx, runChunks,
      failAfterFirst])).1

/-- Counterexample for C5 as stated: the loop had collected the signature
`"s1"` of the confirmed first chunk when the second chunk failed, but the
state returned to the caller contains an empty signature list — not the
signatures collected so far — and the fixed failure message, which carries
no count of succeeded chunks. -/
theorem reclaim_failure_counterexample :
    (handleReclaim failAfterFirst "W" sevenAccounts).2.collected = ["s1"] ∧
    (handleReclaim failAfterFirst "W" sevenAccounts).2.confirmed = 1 ∧
    (handleReclaim failAfterFirst "W" sevenAccounts).2.failed = true ∧
    (handleReclaim failAfterFirst "W" sevenAccounts).1.reclaimSignatures
      = [] ∧
    (handleReclaim failAfterFirst "W" sevenAccounts).1.reclaimSignatures
      ≠ ["s1"] ∧
    (handleReclaim failAfterFirst "W" sevenAccounts).1.reclaimError =
      reclaimFailureMessage ∧
    (handleReclaim failAfterFirst "W" sevenAccounts).1.reclaimSuccess =
      none := by
  simp [handleReclaim, sevenAccounts, sampleAta, chunkArray,
    RECLAIM_CHUNK_SIZE, chunkGo, buildChunkTx, runChunks, failAfterFirst,
    reclaimFailureMessage]

/-! ## Helper lemmas for the mint store -/

theorem successRows_append (store : List MintRow) (row : MintRow)
    (wallet : String) :
    successRows (store ++ [row]) wallet =
      successRows store wallet ++
        if row.user_wallet == wallet && row.status == "success" then [row]
        else [] := by
  simp only [successRows, List.filter_append, List.filter_cons,
    List.filter_nil]

theorem lookupLatest_append_match (store : List MintRow) (row : MintRow)
    (wallet : String) (h : (row.user_wallet == wallet) = true) :
    lookupLatest (store ++ [row]) wallet = some row := by
  simp [lookupLatest, List.filter_append, h, List.getLast?_concat]

theorem lookupLatest_append_other (store : List MintRow) (row : MintRow)
    (wallet : String) (h : (row.user_wallet == wallet) = false) :
    lookupLatest (store ++ [row]) wallet = lookupLatest store wallet := by
  simp [lookupLatest, List.filter_append, h]

theorem ids_lt (store : List MintRow)
    (h : store.map (fun r => r.id) = List.range store.length) :
    ∀ r ∈ store, r.id < store.length := by
  intro r hr
  have hm : r.id ∈ store.map (fun r => r.id) :=
    List.mem_map_of_mem (fun r => r.id) hr
  rw [h] at hm
  exact List.mem_range.mp hm

theorem update_append_fresh (store : List MintRow) (p : MintRow)
    (f : MintRow → MintRow) (hlt : ∀ r ∈ store, r.id < store.length)
    (hp : p.id = store.length) :
    updateSupabaseStatus (store ++ [p]) (some store.length) f =
      store ++ [f p] := by
  simp only [updateSupabaseStatus, List.map_append, List.map_cons,
    List.map_nil]
  congr 1
  · have hcong : ∀ r ∈ store,
        (if (r.id == store.length) = true then f r else r) = r := by
      intro r hr
      rw [if_neg]
      simp only [beq_iff_eq]
      exact Nat.ne_of_lt (hlt r hr)
    rw [List.map_congr_left hcong]
    exact List.map_id store
  · simp [beq_iff_eq, hp]

theorem storeInv_nil : StoreInv [] := by
  constructor
  · simp
  · intro wallet
    left
    simp [successRows]

theorem storeInv_append (store : List MintRow) (row : MintRow)
    (hinv : StoreInv store) (hid : row.id = store.length)
    (hnos : successRows store row.user_wallet = []) :
    StoreInv (store ++ [row]) := by
  obtain ⟨hids, hwal⟩ := hinv
  constructor
  · simp only [List.map_append, List.map_cons, List.map_nil, hids,
      List.length_append, List.length_cons, List.length_nil, hid]
    rw [show store.length + (0 + 1) = store.length.succ by omega,
      List.range_succ]
  · intro wallet
    cases hbw : row.user_wallet == wallet with
    | false =>
      rw [successRows_append, hbw]
      simp only [Bool.false_and, Bool.false_eq_true, if_false,
        List.append_nil]
      rcases hwal wallet with h | ⟨r, h1, h2, h3⟩
      · left; exact h
      · right
        refine ⟨r, h1, ?_, h3⟩
        rw [lookupLatest_append_other store row wallet hbw]
        exact h2
    | true =>
      obtain rfl := eq_of_beq hbw
      cases hst : row.status == "success" with
      | true =>
        right
        refine ⟨row, ?_, lookupLatest_append_match store row _ (by simp),
          eq_of_beq hst⟩
        rw [successRows_append, hnos]
        simp [hst]
      | false =>
        left
        rw [successRows_append, hnos]
        simp [hst]

theorem storeInv_fresh (outcome : Except String (String × String))
    (wallet sig : String) (store : List MintRow)
    (hids : store.map (fun r => r.id) = List.range store.length)
    (hwal : ∀ w, successRows store w = [] ∨
      ∃ row, successRows store w = [row] ∧ lookupLatest store w = some row ∧
        row.status = "success")
    (hnos : successRows store wallet = [])
    (hfresh : ensureNoDuplicateMint store wallet (some sig) =
      (.fresh store.length,
       store ++ [pendingRow store.length wallet (some sig)])) :
    StoreInv (mintCore outcome wallet sig store).2 := by
  cases outcome with
  | ok pr =>
    obtain ⟨ma, tx⟩ := pr
    have heq : (mintCore (Except.ok (ma, tx)) wallet sig store).2 =
        store ++ [{ pendingRow store.length wallet (some sig) with
          status := "success", nft_mint_address := some ma,
          transaction_signature := some tx, error_message := none }] := by
      simp only [mintCore, hfresh]
      exact update_append_fresh store _ _ (ids_lt store hids) rfl
    rw [heq]
    exact storeInv_append store _ ⟨hids, hwal⟩ rfl hnos
  | error msg =>
    have heq : (mintCore (Except.error msg) wallet sig store).2 =
        store ++ [{ pendingRow store.length wallet (some sig) with
          status := "failed", error_message := some msg }] := by
      simp only [mintCore, hfresh]
      exact update_append_fresh store _ _ (ids_lt store hids) rfl
    rw [heq]
    exact storeInv_append store _ ⟨hids, hwal⟩ rfl hnos

theorem storeInv_mintCore (outcome : Except String (String × String))
    (wallet sig : String) (store : List MintRow) (hinv : StoreInv store) :
    StoreInv (mintCore outcome wallet sig store).2 := by
  obtain ⟨hids, hwal⟩ := hinv
  cases hlook : lookupLatest store wallet with
  | none =>
    have hnos : successRows store wallet = [] := by
      rcases hwal wallet with h | ⟨r, _, h2, _⟩
      · exact h
      · rw [hlook] at h2
        exact absurd h2 (by simp)
    refine storeInv_fresh outcome wallet sig store hids hwal hnos ?_
    simp [ensureNoDuplicateMint, hlook]
  | some row =>
    cases hst : row.status == "success" with
    | true =>
      have heq : mintCore outcome wallet sig store =
          (.alreadyMinted row.nft_mint_address, store) := by
        simp [mintCore, ensureNoDuplicateMint, hlook, hst]
      rw [heq]
      exact ⟨hids, hwal⟩
    | false =>
      have hnos : successRows store wallet = [] := by
        rcases hwal wallet with h | ⟨r, _, h2, h3⟩
        · exact h
        · rw [hlook] at h2
          obtain rfl := Option.some.inj h2
          exact absurd (beq_iff_eq.mpr h3) (by rw [hst]; simp)
      refine storeInv_fresh outcome wallet sig store hids hwal hnos ?_
      simp [ensureNoDuplicateMint, hlook, hst]

theorem mintPOST_store_eq (isValidKey : String → Bool)
    (chainFeePayer : String → Option String)
    (mintOutcome : Except String (String × String)) (req : MintReq)
    (store : List MintRow) :
    (mintPOST isValidKey chainFeePayer mintOutcome req store).2 = store ∨
    ∃ w s, (mintPOST isValidKey chainFeePayer mintOutcome req store).2 =
      (mintCore mintOutcome w s store).2 := by
  unfold mintPOST
  cases hwa : req.walletAddress.map jsTrim with
  | none => left; rfl
  | some w =>
    by_cases hw : (w == "") = true
    · left; simp [hw]
    · cases hsa : req.reclaimSignature.map jsTrim with
      | none => left; simp [hw]
      | some s =>
        by_cases hs : (s == "") = true
        · left; simp [hw, hs]
        · by_cases hk : isValidKey w = true
          · by_cases hc : (chainFeePayer s != some w) = true
            · left; simp [hw, hs, hk, hc]
            · right
              refine ⟨w, s, ?_⟩
              simp [hw, hs, hk, hc]
          · left; simp [hw, hs, hk]

theorem storeInv_mintPOST (isValidKey : String → Bool)
    (chainFeePayer : String → Option String)
    (mintOutcome : Except String (String × String)) (req : MintReq)
    (store : List MintRow) (hinv : StoreInv store) :
    StoreInv (mintPOST isValidKey chainFeePayer mintOutcome req store).2 := by
  rcases mintPOST_store_eq isValidKey chainFeePayer mintOutcome req store
    with h | ⟨w, s, h⟩
  · rw [h]; exact hinv
  · rw [h]; exact storeInv_mintCore mintOutcome w s store hinv

theorem storeInv_reachable (store : List MintRow)
    (h : ReachableStore store) : StoreInv store := by
  induction h with
  | nil => exact storeInv_nil
  | step ivk chain outcome req st _ ih =>
    exact storeInv_mintPOST ivk chain outcome req st ih

theorem mintPOST_valid_eq (isValidKey : String → Bool)
    (chainFeePayer : String → Option String)
    (mintOutcome : Except String (String × String)) (req : MintReq)
    (store : List MintRow) (ws ss : String)
    (hwa : req.walletAddress = some ws) (hsa : req.reclaimSignature = some ss)
    (hw : jsTrim ws ≠ "") (hs : jsTrim ss ≠ "")
    (hk : isValidKey (jsTrim ws) = true)
    (hc : chainFeePayer (jsTrim ss) = some (jsTrim ws)) :
    mintPOST isValidKey chainFeePayer mintOutcome req store =
      mintCore mintOutcome (jsTrim ws) (jsTrim ss) store := by
  unfold mintPOST
  rw [hwa, hsa]
  simp [hw, hs, hk, hc]

/-- C1: for every wallet, at most one MintRecord row ever reaches
`status = "success"` across any sequence of atomically handled mint
requests; a valid mint call made when a success row already exists for that
wallet returns `already_minted` with the previously recorded mint address
and leaves the store unchanged (never a second distinct mint address); and
a new token is minted (`minted` response) only when no success row existed
for that wallet. -/
theorem mint_guard_unique_success (store : List MintRow)
    (hreach : ReachableStore store) :
    (∀ wallet, (successRows store wallet).length ≤ 1) ∧
    (∀ (isValidKey : String → Bool) (chainFeePayer : String → Option String)
        (mintOutcome : Except String (String × String)) (req : MintReq)
        (ws ss : String) (row : MintRow),
      req.walletAddress = some ws → req.reclaimSignature = some ss →
      jsTrim ws ≠ "" → jsTrim ss ≠ "" → isValidKey (jsTrim ws) = true →
      chainFeePayer (jsTrim ss) = some (jsTrim ws) →
      successRows store (jsTrim ws) = [row] →
      mintPOST isValidKey chainFeePayer mintOutcome req store =
        (MintResp.alreadyMinted row.nft_mint_address, store)) ∧
    (∀ (isValidKey : String → Bool) (chainFeePayer : String → Option String)
        (mintOutcome : Except String (String × String)) (req : MintReq)
        (ws ma sg : String) (store2 : List MintRow),
      req.walletAddress = some ws →
      mintPOST isValidKey chainFeePayer mintOutcome req store =
        (MintResp.minted ma sg, store2) →
      successRows store (jsTrim ws) = []) := by
  obtain ⟨hids, hwal⟩ := storeInv_reachable store hreach
  refine ⟨?_, ?_, ?_⟩
  · intro wallet
    rcases hwal wallet with h | ⟨row, h1, _, _⟩
    · simp [h]
    · simp [h1]
  · intro ivk chain outcome req ws ss row hwa hsa hw hs hk hc hrow
    rw [mintPOST_valid_eq ivk chain outcome req store ws ss hwa hsa hw hs hk
      hc]
    rcases hwal (jsTrim ws) with h | ⟨r, h1, h2, h3⟩
    · rw [hrow] at h
      exact absurd h (by simp)
    · rw [hrow] at h1
      obtain ⟨rfl, -⟩ := List.cons.inj h1
      simp [mintCore, ensureNoDuplicateMint, h2, beq_iff_eq.mpr h3]
  · intro ivk chain outcome req ws ma sg store2 hwa hpost
    unfold mintPOST at hpost
    split at hpost
    · simp at hpost
    · rename_i w heq
      split at hpost
      · simp at hpost
      · split at hpost
        · simp at hpost
        · rename_i s hseq
          split at hpost
          · simp at hpost
          · split at hpost
            · simp at hpost
            · split at hpost
              · simp at hpost
              · rw [hwa] at heq
                simp only [Option.map_some'] at heq
                obtain rfl := Option.some.inj heq
                rcases hwal (jsTrim ws) with h | ⟨r, h1, h2, h3⟩
                · exact h
                · have heq2 : mintCore outcome (jsTrim ws) s store =
                      (.alreadyMinted r.nft_mint_address, store) := by
                    simp [mintCore, ensureNoDuplicateMint, h2,
                      beq_iff_eq.mpr h3]
                  rw [heq2] at hpost
                  simp at hpost

/-- Witness for C1: the theorem applied to the store reached by one
successful mint request for wallet `"W"` from the empty store. -/
theorem mint_guard_unique_success_witness :
    (successRows
      (mintPOST alwaysValidKey chainW okOutcome mintReqW []).2 "W").length
      ≤ 1 :=
  (mint_guard_unique_success
    (mintPOST alwaysValidKey chainW okOutcome mintReqW []).2
    (ReachableStore.step alwaysValidKey chainW okOutcome mintReqW []
      ReachableStore.nil)).1 "W"

/-- C2: if the supplied reclaim signature does not resolve via the chain
query to a confirmed transaction whose fee payer equals the wallet address
(absent, unconfirmed, or paid by a different account — all cases where
`chainFeePayer` does not return the wallet), the request fails with the
reclaim-verification error (`invalid_reclaim_signature`) and no MintRecord
row, pending or otherwise, is inserted by that request: the store is
returned unchanged. -/
theorem mint_reclaim_mismatch_no_insert (isValidKey : String → Bool)
    (chainFeePayer : String → Option String)
    (mintOutcome : Except String (String × String)) (req : MintReq)
    (store : List MintRow) (ws ss : String)
    (hwa : req.walletAddress = some ws) (hsa : req.reclaimSignature = some ss)
    (hw : jsTrim ws ≠ "") (hs : jsTrim ss ≠ "")
    (hk : isValidKey (jsTrim ws) = true)
    (hc : chainFeePayer (jsTrim ss) ≠ some (jsTrim ws)) :
    mintPOST isValidKey chainFeePayer mintOutcome req store =
      (MintResp.invalidReclaimSignature, store) := by
  unfold mintPOST
  rw [hwa, hsa]
  simp [hw, hs, hk, hc]

/-- Witness for C2: a request whose reclaim signature resolves to no
transaction is rejected and the store stays empty. -/
theorem mint_reclaim_mismatch_no_insert_witness :
    mintPOST alwaysValidKey chainNone okOutcome mintReqW [] =
      (MintResp.invalidReclaimSignature, []) :=
  mint_reclaim_mismatch_no_insert alwaysValidKey chainNone okOutcome mintReqW
    [] "W" "SIG" rfl rfl (by decide) (by decide) rfl (by decide)

/-- Counterexample for C3 as stated: with requested room `"welcome-family"`
the message `"ATA_VOICE_JOIN:evil:1"` does not match the pattern
`"ATA_VOICE_JOIN:" + room + ":" + nonce` for that room, yet the route does
not reject it with the invalid-message error: with a verifying signature
and reward ownership it issues an access token. -/
theorem voice_room_pattern_counterexample :
    specVoiceMessagePattern "welcome-family" "ATA_VOICE_JOIN:evil:1" =
        false ∧
      voicePOST alwaysValidKey alwaysVerify jwtOk true storeYes true
          (fun _ => false) evilRoomPayload =
        VoiceResp.tokenIssued "tok" "welcome-family"
          { room := "welcome-family", identity := "W", ttl := 600,
            roomJoin := true, canPublish := true, canSubscribe := true,
            canPublishData := true } := by
  constructor
  · decide
  · decide

/-- C3 (amended): the route validates only that the message starts with the
fixed tag `"ATA_VOICE_JOIN:"`; a request whose message lacks this tag is
rejected with the invalid-message error and no access token is issued
(every issued token's request had the tag), but the room and nonce parts of
the pattern are not checked against the requested room. -/
theorem voice_message_tag_check (isValidKey : String → Bool)
    (verifySig : String → String → String → Bool)
    (mkJwt : VoiceGrant → Except String String) (supabaseConfigured : Bool)
    (storeLookup : String → Except String Bool) (collectionConfigured : Bool)
    (chainScan : String → Bool) (payload : VoicePayload)
    (ws ss msg : String)
    (hwa : payload.walletAddress = some ws)
    (hsa : payload.signature = some ss)
    (hma : payload.message = some msg)
    (hw : jsTrim ws ≠ "") (hs : jsTrim ss ≠ "") (hm : msg ≠ "")
    (hk : isValidKey (jsTrim ws) = true) :
    (jsStartsWith msg "ATA_VOICE_JOIN:" = false →
      voicePOST isValidKey verifySig mkJwt supabaseConfigured storeLookup
        collectionConfigured chainScan payload = VoiceResp.invalidMessage) ∧
    ∀ tok rm g,
      voicePOST isValidKey verifySig mkJwt supabaseConfigured storeLookup
        collectionConfigured chainScan payload =
          VoiceResp.tokenIssued tok rm g →
      jsStartsWith msg "ATA_VOICE_JOIN:" = true := by
  constructor
  · intro htag
    unfold voicePOST
    rw [hwa, hsa, hma]
    simp [hw, hs, hm, hk, htag]
  · intro tok rm g htok
    by_cases htag : jsStartsWith msg "ATA_VOICE_JOIN:" = true
    · exact htag
    · exfalso
      rw [Bool.not_eq_true] at htag
      unfold voicePOST at htok
      rw [hwa, hsa, hma] at htok
      simp [hw, hs, hm, hk, htag] at htok

/-- Witness for C3's amended theorem: a message without the fixed tag is
rejected with the invalid-message response. -/
theorem voice_message_tag_check_witness :
    voicePOST alwaysValidKey alwaysVerify jwtOk true storeYes true
        (fun _ => false)
        { walletAddress := some "W", signature := some "SIG",
          message := some "hello", room := none } =
      VoiceResp.invalidMessage :=
  (voice_message_tag_check alwaysValidKey alwaysVerify jwtOk true storeYes
    true (fun _ => false)
    { walletAddress := some "W", signature := some "SIG",
      message := some "hello", room := none }
    "W" "SIG" "hello" rfl rfl rfl (by decide) (by decide) (by decide)
    rfl).1 (by decide)

/-- C8: if the durable-store lookup for the wallet's success MintRecord
returns an error (as opposed to finding no row), `walletOwnsNft` is false
for every value of the on-chain fallback oracle — the fallback scan is
never consulted — and the authorize request is rejected with the
missing-reward (`missing_nft`) response. -/
theorem voice_store_error_rejects (isValidKey : String → Bool)
    (verifySig : String → String → String → Bool)
    (mkJwt : VoiceGrant → Except String String)
    (storeLookup : String → Except String Bool)
    (collectionConfigured : Bool) (chainScan : String → Bool)
    (payload : VoicePayload) (ws ss msg e : String)
    (hwa : payload.walletAddress = some ws)
    (hsa : payload.signature = some ss)
    (hma : payload.message = some msg)
    (hw : jsTrim ws ≠ "") (hs : jsTrim ss ≠ "") (hm : msg ≠ "")
    (hk : isValidKey (jsTrim ws) = true)
    (htag : jsStartsWith msg "ATA_VOICE_JOIN:" = true)
    (hv : verifySig msg (jsTrim ss) (jsTrim ws) = true)
    (herr : storeLookup (jsTrim ws) = Except.error e) :
    (∀ cfg scan, walletOwnsNft true (Except.error e) cfg scan = false) ∧
    voicePOST isValidKey verifySig mkJwt true storeLookup
      collectionConfigured chainScan payload = VoiceResp.missingNft := by
  constructor
  · intro cfg scan
    rfl
  · unfold voicePOST
    rw [hwa, hsa, hma]
    simp [hw, hs, hm, hk, htag, hv, walletOwnsNft, herr]

/-- Witness for C8: with a failing store lookup and a fallback oracle that
would accept, the request is still rejected with the missing-reward
response. -/
theorem voice_store_error_rejects_witness :
    voicePOST alwaysValidKey alwaysVerify jwtOk true storeErr true
        (fun _ => true) noRoomPayload = VoiceResp.missingNft :=
  (voice_store_error_rejects alwaysValidKey alwaysVerify jwtOk storeErr true
    (fun _ => true) noRoomPayload "W" "SIG"
    "ATA_VOICE_JOIN:welcome-family:42" "db down" rfl rfl rfl (by decide)
    (by decide) (by decide) rfl (by decide) rfl rfl).2

/-- C10: an authorize request that passes all checks and whose room field
is absent, empty, or whitespace-only is granted access scoped to the
default room `"welcome-family"`, with a 600-second (10-minute) time-to-live
and the wallet's trimmed base58 address as the grant identity; the success
response carries the same token and default room. -/
theorem voice_default_room_grant (isValidKey : String → Bool)
    (verifySig : String → String → String → Bool)
    (mkJwt : VoiceGrant → Except String String) (tok : String)
    (supabaseConfigured : Bool)
    (storeLookup : String → Except String Bool)
    (collectionConfigured : Bool) (chainScan : String → Bool)
    (payload : VoicePayload) (ws ss msg : String)
    (hwa : payload.walletAddress = some ws)
    (hsa : payload.signature = some ss)
    (hma : payload.message = some msg)
    (hroom : payload.room = none ∨
      ∃ r, payload.room = some r ∧ jsTrim r = "")
    (hw : jsTrim ws ≠ "") (hs : jsTrim ss ≠ "") (hm : msg ≠ "")
    (hk : isValidKey (jsTrim ws) = true)
    (htag : jsStartsWith msg "ATA_VOICE_JOIN:" = true)
    (hv : verifySig msg (jsTrim ss) (jsTrim ws) = true)
    (hown : walletOwnsNft supabaseConfigured (storeLookup (jsTrim ws))
      collectionConfigured (chainScan (jsTrim ws)) = true)
    (hjwt : mkJwt
      { room := "welcome-family", identity := jsTrim ws, ttl := 600,
        roomJoin := true, canPublish := true, canSubscribe := true,
        canPublishData := true } = Except.ok tok) :
    voicePOST isValidKey verifySig mkJwt supabaseConfigured storeLookup
      collectionConfigured chainScan payload =
      VoiceResp.tokenIssued tok "welcome-family"
        { room := "welcome-family", identity := jsTrim ws, ttl := 600,
          roomJoin := true, canPublish := true, canSubscribe := true,
          canPublishData := true } := by
  unfold voicePOST
  rcases hroom with h | ⟨r, h, hr⟩
  · rw [hwa, hsa, hma, h]
    simp [hw, hs, hm, hk, htag, hv, hown, hjwt]
  · rw [hwa, hsa, hma, h]
    simp [hw, hs, hm, hk, htag, hv, hown, hjwt, hr]

/-- Witness for C10: with no room field and a well-formed request, the
grant is scoped to the default room with a 10-minute ttl and the wallet as
identity. -/
theorem voice_default_room_grant_witness :
    voicePOST alwaysValidKey alwaysVerify jwtOk true storeYes true
        (fun _ => false) noRoomPayload =
      VoiceResp.tokenIssued "tok" "welcome-family"
        { room := "welcome-family", identity := "W", ttl := 600,
          roomJoin := true, canPublish := true, canSubscribe := true,
          canPublishData := true } :=
  voice_default_room_grant alwaysValidKey alwaysVerify jwtOk "tok" true
    storeYes true (fun _ => false) noRoomPayload "W" "SIG"
    "ATA_VOICE_JOIN:welcome-family:42" rfl rfl rfl (Or.inl rfl) (by decide)
    (by decide) (by decide) rfl (by decide) rfl rfl rfl

end Ata
